import Mathlib

/-!
Shallow embedding of `age/src/format/scrypt.rs` (the scrypt passphrase
recipient stanza of the rage encryption tool): stanza parsing and
serialization, the scrypt work-factor calibrator, and the bounded
key-unwrap engine.  Bytes are `Nat` values below 256, byte strings are
`List Nat`, and the external cryptographic collaborators (scrypt and
authenticated decryption) are parameters, with the wrapping code's
behaviour (invocation order, error mapping) embedded faithfully.

The unwrap engine is instrumented: alongside its result it returns the
list of scrypt invocations it performed, so that specification claims
about "the derivation primitive is (not) invoked" are statable.
-/

namespace RageScrypt

/-- `SCRYPT_RECIPIENT_TAG` from the source. -/
def SCRYPT_RECIPIENT_TAG : String := "scrypt"

/-- `SCRYPT_SALT_LABEL` from the source, as its byte values. -/
def SCRYPT_SALT_LABEL : List Nat :=
  "age-encryption.org/v1/scrypt".data.map Char.toNat

/-- `ONE_SECOND` from the source, in nanoseconds (durations are
modelled as nanosecond counts). -/
def ONE_SECOND : Nat := 1000000000

/-- `SALT_LEN` from the source. -/
def SALT_LEN : Nat := 16

/-- `ENCRYPTED_FILE_KEY_BYTES` from the source. -/
def ENCRYPTED_FILE_KEY_BYTES : Nat := 32

/-! ### Base64 (standard alphabet, no padding)

Modelled from the spec: `base64_arg` (in `age/src/util.rs`, not under
`src/`) decodes an argument as fixed-length unpadded standard base64,
`base64_decode_fixed(text, expected_length) -> bytes or none`; the
serializer uses `base64::encode_config(_, STANDARD_NO_PAD)`. -/

/-- The standard base64 alphabet. -/
def b64Alphabet : List Char :=
  "ABCDEFGHIJKLMNOPQRSTUVWXYZabcdefghijklmnopqrstuvwxyz0123456789+/".data

/-- The character encoding a 6-bit value. -/
def b64Char (n : Nat) : Char := b64Alphabet.getD n 'A'

/-- The 6-bit value of an alphabet character (`none` for characters
outside the alphabet, including the padding character). -/
def b64Index (c : Char) : Option Nat :=
  let i := b64Alphabet.indexOf c
  if i < 64 then some i else none

/-- Split a byte sequence into 6-bit groups (big-endian within each
3-byte chunk; a trailing chunk of 1 or 2 bytes yields 2 or 3 groups
with zero trailing bits). -/
def b64EncodeChunks : List Nat → List Nat
  | [] => []
  | [b0] => [b0 / 4, b0 % 4 * 16]
  | [b0, b1] => [b0 / 4, b0 % 4 * 16 + b1 / 16, b1 % 16 * 4]
  | b0 :: b1 :: b2 :: rest =>
      b0 / 4 :: (b0 % 4 * 16 + b1 / 16) :: (b1 % 16 * 4 + b2 / 64) :: b2 % 64 ::
        b64EncodeChunks rest

/-- Reassemble bytes from 6-bit groups; rejects lengths that are
impossible for unpadded base64 and nonzero trailing bits. -/
def b64DecodeChunks : List Nat → Option (List Nat)
  | [] => some []
  | [_] => none
  | [c0, c1] => if c1 % 16 = 0 then some [c0 * 4 + c1 / 16] else none
  | [c0, c1, c2] =>
      if c2 % 4 = 0 then some [c0 * 4 + c1 / 16, c1 % 16 * 16 + c2 / 4] else none
  | c0 :: c1 :: c2 :: c3 :: rest =>
      (b64DecodeChunks rest).map fun bs =>
        (c0 * 4 + c1 / 16) :: (c1 % 16 * 16 + c2 / 4) :: (c2 % 4 * 64 + c3) :: bs

/-- Map a fallible function over a list, failing if any element fails. -/
def traverseOption (f : α → Option β) : List α → Option (List β)
  | [] => some []
  | a :: as => (f a).bind fun b => (traverseOption f as).map fun bs => b :: bs

/-- Unpadded standard base64 encoding of a byte sequence. -/
def b64Encode (bs : List Nat) : String :=
  String.mk ((b64EncodeChunks bs).map b64Char)

/-- Unpadded standard base64 decoding of a string. -/
def b64Decode (s : String) : Option (List Nat) :=
  (traverseOption b64Index s.data).bind b64DecodeChunks

/-- Modelled from the spec: `base64_arg` (`age/src/util.rs`, not under
`src/`) — decode an argument as unpadded base64 and require exactly
`len` bytes, returning `none` on any failure. -/
def base64_arg (arg : String) (len : Nat) : Option (List Nat) :=
  match b64Decode arg with
  | some bs => if bs.length = len then some bs else none
  | none => none

/-! ### Decimal parsing and printing of a `u8`

Modelled from the Rust standard library: `u8::from_str_radix(s, 10)`
accepts an optional leading `+`, then one or more decimal digits, with
a checked accumulator that fails once the value leaves `u8` range; a
leading `-` or any non-digit fails.  `format!("{}", n)` prints the
plain decimal digits. -/

/-- The value of a decimal digit character, `none` otherwise. -/
def parseDecDigit (c : Char) : Option Nat :=
  if '0' ≤ c ∧ c ≤ '9' then some (c.toNat - 48) else none

/-- Accumulate decimal digits with the `u8` overflow check at each step. -/
def parseDigitsU8 : Nat → List Char → Option Nat
  | acc, [] => some acc
  | acc, c :: cs =>
      (parseDecDigit c).bind fun d =>
        if acc * 10 + d < 256 then parseDigitsU8 (acc * 10 + d) cs else none

/-- `u8::from_str_radix(s, 10)`. -/
def fromStrRadix10 (s : String) : Option Nat :=
  match s.data with
  | [] => none
  | c :: rest =>
      let digits := if c = '+' then rest else c :: rest
      match digits with
      | [] => none
      | d :: ds => parseDigitsU8 0 (d :: ds)

/-- The decimal digit character for `n < 10`. -/
def decDigitChar (n : Nat) : Char := Char.ofNat (48 + n)

/-- The decimal digits of a `u8` value (`format!("{}", n)`). -/
def u8Repr (n : Nat) : List Char :=
  if n < 10 then [decDigitChar n]
  else if n < 100 then [decDigitChar (n / 10), decDigitChar (n % 10)]
  else [decDigitChar (n / 100), decDigitChar (n / 10 % 10), decDigitChar (n % 10)]

/-- The decimal string of a `u8` value. -/
def u8ReprStr (n : Nat) : String := String.mk (u8Repr n)

/-! ### Stanza types and codec -/

/-- The generic tagged stanza (`age_core::format::AgeStanza`, an
external collaborator per the spec): a tag, ordered string arguments,
and a raw body.  Modelled from the spec: its own line-wrapped textual
encode/decode round-trips and is out of scope, so serialization targets
this type directly. -/
structure AgeStanza where
  tag : String
  args : List String
  body : List Nat
deriving DecidableEq

/-- `RecipientStanza` from the source: the typed scrypt stanza.  The
fixed-size arrays `[u8; 16]` and `[u8; 32]` are byte lists whose
lengths are established by the parser. -/
structure RecipientStanza where
  salt : List Nat
  log_n : Nat
  encrypted_file_key : List Nat
deriving DecidableEq

/-- `RecipientStanza::from_stanza`: tag must match, args\[0\] must
decode as unpadded base64 to exactly 16 bytes, args\[1\] must parse as
a base-10 `u8`, and the body must convert to a 32-byte array. -/
def RecipientStanza.from_stanza (stanza : AgeStanza) : Option RecipientStanza :=
  if stanza.tag ≠ SCRYPT_RECIPIENT_TAG then none
  else
    (stanza.args.get? 0).bind fun a0 =>
    (base64_arg a0 SALT_LEN).bind fun salt =>
    (stanza.args.get? 1).bind fun a1 =>
    (fromStrRadix10 a1).bind fun log_n =>
    (if stanza.body.length = ENCRYPTED_FILE_KEY_BYTES then some stanza.body else none).bind
      fun efk => some ⟨salt, log_n, efk⟩

/-- `write::recipient_stanza`: serialize the typed stanza to the
generic stanza — base64-encoded salt and decimal work factor as the two
arguments, the wrapped key as the body, under the fixed tag. -/
def write.recipient_stanza (r : RecipientStanza) : AgeStanza :=
  ⟨SCRYPT_RECIPIENT_TAG, [b64Encode r.salt, u8ReprStr r.log_n], r.encrypted_file_key⟩

/-! ### External cryptographic collaborators -/

/-- The pure behaviour of the external primitives, a parameter of the
embedding: `derive` is the scrypt key function on valid parameters, and
`aead_open` is authenticated decryption (`age_core::primitives::aead_decrypt`),
which per the spec fails (`none`) on authentication mismatch. -/
structure Crypto where
  derive : List Nat → Nat → String → List Nat
  aead_open : List Nat → List Nat → Option (List Nat)

/-- Modelled from the spec: `crate::primitives::scrypt` (not under
`src/`) — `derive(salt, cost_exponent, passphrase)` fails on an invalid
exponent; exponents ≥ 64 are unrepresentable by the primitive. -/
def scrypt (C : Crypto) (salt : List Nat) (log_n : Nat) (passphrase : String) :
    Option (List Nat) :=
  if log_n < 64 then some (C.derive salt log_n passphrase) else none

/-- A record of one invocation of the derivation primitive. -/
structure ScryptCall where
  salt : List Nat
  log_n : Nat
  passphrase : String
deriving DecidableEq

/-! ### Cost calibrator -/

/-- The doubling loop of `target_scrypt_work_factor`:
`while d < ONE_SECOND && log_n < 63 { log_n += 1; d *= 2 }`, with
explicit fuel.  Starting from `log_n = 10` the loop runs at most 53
iterations, so fuel 53 makes the fuelled function agree with the loop. -/
def calibrate_loop : Nat → Nat → Nat → Nat
  | 0, _, log_n => log_n
  | fuel + 1, d, log_n =>
      if d < ONE_SECOND ∧ log_n < 63 then calibrate_loop fuel (2 * d) (log_n + 1)
      else log_n

/-- `target_scrypt_work_factor`, parameterised over the platform:
`hasClock` is whether `SystemTime::now()` works (false only on
`wasm32` without WASI, where no timing probe runs), and `measured` is
the nondeterministic outcome of `duration_since(start).ok()` for the
probe.  On a clocked platform the probe `scrypt(&[], 10, "")` is always
invoked, and the recorded invocations are returned alongside the chosen
work factor. -/
def target_scrypt_work_factor (hasClock : Bool) (measured : Option Nat) :
    Nat × List ScryptCall :=
  let duration : Option Nat := if hasClock then measured else none
  let calls : List ScryptCall := if hasClock then [⟨[], 10, ""⟩] else []
  (match duration with
   | some d => calibrate_loop 53 d 10
   | none => 18,
   calls)

/-! ### Key unwrap engine -/

/-- The error type of the unwrap engine (`crate::error::Error`,
restricted to the variants this module produces). -/
inductive Error where
  | ExcessiveWork (required : Nat) (target : Nat)
  | DecryptionFailed
deriving DecidableEq

/-- The observable outcome of `unwrap_file_key`:
`Ok(Some(FileKey))` carries the 16 plaintext bytes, `Err` an `Error`,
and `panicked` models the `copy_from_slice` length-mismatch panic. -/
inductive UnwrapResult where
  | ok (file_key : Option (List Nat))
  | err (e : Error)
  | panicked
deriving DecidableEq

/-- `RecipientStanza::unwrap_file_key`, instrumented with the list of
scrypt invocations it performs (the calibrator probe included).  It
measures the target, rejects work factors above the effective ceiling
with `ExcessiveWork`, builds the domain-separated inner salt, maps a
derivation-primitive rejection to the same `ExcessiveWork`, and maps an
authenticated-decryption failure to `DecryptionFailed`; on success the
plaintext is copied into the 16-byte file key (a length mismatch would
panic). -/
def RecipientStanza.unwrap_file_key (C : Crypto) (hasClock : Bool)
    (measured : Option Nat) (r : RecipientStanza) (passphrase : String)
    (max_work_factor : Option Nat) : UnwrapResult × List ScryptCall :=
  let tc := target_scrypt_work_factor hasClock measured
  let target := tc.1
  if r.log_n > max_work_factor.getD (target + 4) then
    (.err (.ExcessiveWork r.log_n target), tc.2)
  else
    let inner_salt := SCRYPT_SALT_LABEL ++ r.salt
    let calls := tc.2 ++ [⟨inner_salt, r.log_n, passphrase⟩]
    match scrypt C inner_salt r.log_n passphrase with
    | none => (.err (.ExcessiveWork r.log_n target), calls)
    | some enc_key =>
        match C.aead_open enc_key r.encrypted_file_key with
        | some pt =>
            if pt.length = 16 then (.ok (some pt), calls) else (.panicked, calls)
        | none => (.err .DecryptionFailed, calls)

/-- A trivial instantiation of the external primitives (decryption
always fails to authenticate), used to evaluate the engine at concrete
inputs. -/
def trivialCrypto : Crypto :=
  ⟨fun _ _ _ => List.replicate 32 0, fun _ _ => none⟩

/-- An instantiation of the external primitives whose authenticated
decryption honours the interface contract: a 32-byte ciphertext opens
to exactly 16 plaintext bytes. -/
def okCrypto : Crypto :=
  ⟨fun _ _ _ => List.replicate 32 0,
   fun _ ct => if ct.length = 32 then some (List.replicate 16 1) else none⟩

/-! ### Helper lemmas -/

/-- Decoding inverts encoding on each 6-bit value. -/
theorem b64Index_b64Char_fin : ∀ n : Fin 64, b64Index (b64Char n.val) = some n.val := by
  decide

/-- Decoding inverts encoding on each 6-bit value (unbundled form). -/
theorem b64Index_b64Char {n : Nat} (h : n < 64) : b64Index (b64Char n) = some n :=
  b64Index_b64Char_fin ⟨n, h⟩

/-- Splitting bytes into 6-bit groups yields values below 64. -/
theorem b64EncodeChunks_lt : ∀ l : List Nat, (∀ b ∈ l, b < 256) →
    ∀ x ∈ b64EncodeChunks l, x < 64
  | [], _ => by simp [b64EncodeChunks]
  | [b0], h => by
      have h0 := h b0 (by simp)
      simp only [b64EncodeChunks, List.mem_cons, List.not_mem_nil, or_false]
      rintro x (rfl | rfl) <;> omega
  | [b0, b1], h => by
      have h0 := h b0 (by simp)
      have h1 := h b1 (by simp)
      simp only [b64EncodeChunks, List.mem_cons, List.not_mem_nil, or_false]
      rintro x (rfl | rfl | rfl) <;> omega
  | b0 :: b1 :: b2 :: rest, h => by
      have h0 := h b0 (by simp)
      have h1 := h b1 (by simp)
      have h2 := h b2 (by simp)
      have ih := b64EncodeChunks_lt rest (fun b hb => h b (by simp [hb]))
      simp only [b64EncodeChunks, List.mem_cons]
      rintro x (rfl | rfl | rfl | rfl | hx)
      · omega
      · omega
      · omega
      · omega
      · exact ih x hx

/-- Reassembling the 6-bit groups of a byte sequence recovers it. -/
theorem b64DecodeChunks_encode : ∀ l : List Nat, (∀ b ∈ l, b < 256) →
    b64DecodeChunks (b64EncodeChunks l) = some l
  | [], _ => rfl
  | [b0], h => by
      have h0 := h b0 (by simp)
      show b64DecodeChunks [b0 / 4, b0 % 4 * 16] = some [b0]
      rw [b64DecodeChunks, if_pos (by omega)]
      congr 2
      omega
  | [b0, b1], h => by
      have h0 := h b0 (by simp)
      have h1 := h b1 (by simp)
      show b64DecodeChunks [b0 / 4, b0 % 4 * 16 + b1 / 16, b1 % 16 * 4] = some [b0, b1]
      rw [b64DecodeChunks, if_pos (by omega)]
      congr 3
      · omega
      · omega
  | b0 :: b1 :: b2 :: rest, h => by
      have h0 := h b0 (by simp)
      have h1 := h b1 (by simp)
      have h2 := h b2 (by simp)
      have ih := b64DecodeChunks_encode rest (fun b hb => h b (by simp [hb]))
      show b64DecodeChunks
          (b0 / 4 :: (b0 % 4 * 16 + b1 / 16) :: (b1 % 16 * 4 + b2 / 64) :: b2 % 64 ::
            b64EncodeChunks rest)
          = some (b0 :: b1 :: b2 :: rest)
      rw [b64DecodeChunks, ih]
      simp only [Option.map_some']
      congr 4
      · omega
      · omega
      · omega

/-- Re-reading the encoded characters recovers the 6-bit values. -/
theorem traverseOption_b64 : ∀ l : List Nat, (∀ x ∈ l, x < 64) →
    traverseOption b64Index (l.map b64Char) = some l
  | [], _ => rfl
  | a :: as, h => by
      have ha := b64Index_b64Char (h a (by simp))
      have ih := traverseOption_b64 as (fun x hx => h x (by simp [hx]))
      simp [traverseOption, ha, ih]

/-- Base64 decoding inverts encoding on byte sequences. -/
theorem b64Decode_b64Encode (l : List Nat) (h : ∀ b ∈ l, b < 256) :
    b64Decode (b64Encode l) = some l := by
  show (traverseOption b64Index ((b64EncodeChunks l).map b64Char)).bind b64DecodeChunks
      = some l
  rw [traverseOption_b64 _ (b64EncodeChunks_lt l h), Option.some_bind,
    b64DecodeChunks_encode l h]

set_option maxRecDepth 4000 in
/-- Decimal parsing inverts decimal printing on `u8` values. -/
theorem fromStrRadix10_u8ReprStr_fin :
    ∀ n : Fin 256, fromStrRadix10 (u8ReprStr n.val) = some n.val := by
  decide

/-- Decimal parsing inverts decimal printing (unbundled form). -/
theorem fromStrRadix10_u8ReprStr {n : Nat} (h : n < 256) :
    fromStrRadix10 (u8ReprStr n) = some n :=
  fromStrRadix10_u8ReprStr_fin ⟨n, h⟩

/-- The calibration loop never pushes the exponent above 63. -/
theorem calibrate_loop_le : ∀ fuel d log_n, log_n ≤ 63 → calibrate_loop fuel d log_n ≤ 63
  | 0, _, _, h => h
  | fuel + 1, d, log_n, h => by
      rw [calibrate_loop]
      by_cases hc : d < ONE_SECOND ∧ log_n < 63
      · rw [if_pos hc]
        exact calibrate_loop_le fuel (2 * d) (log_n + 1) (by omega)
      · rw [if_neg hc]
        exact h

/-! ### Claim theorems -/

/-- C1, counterexample: the claim says that when the stanza's cost
exponent exceeds `target + 4` (no caller ceiling), the derivation
primitive is never invoked on that call path.  But `unwrap_file_key`
first calls `target_scrypt_work_factor`, whose timing probe invokes
`scrypt(&[], 10, "")` on every clocked platform — so at a measured
target of 10 and a stanza exponent of 15 the call fails with
excessive-work, yet the recorded scrypt invocation list is not empty. -/
theorem excessive_work_path_still_runs_calibration_probe :
    (RecipientStanza.unwrap_file_key trivialCrypto true (some ONE_SECOND)
        ⟨List.replicate 16 0, 15, List.replicate 32 0⟩ "" none).1
      = .err (.ExcessiveWork 15 10)
    ∧ (RecipientStanza.unwrap_file_key trivialCrypto true (some ONE_SECOND)
        ⟨List.replicate 16 0, 15, List.replicate 32 0⟩ "" none).2 ≠ [] := by
  decide

/-- C1, amended: if no caller ceiling is supplied and the stanza's cost
exponent exceeds the calibrated target plus 4, `unwrap_file_key` fails
with an excessive-work error carrying the required exponent and the
measured target, and the derivation primitive is never invoked at the
stanza's cost parameters — the only invocation on that call path is the
calibrator's fixed probe at exponent 10 with empty salt and empty
passphrase. -/
theorem excessive_work_rejection_only_calibration_probe (C : Crypto) (hasClock : Bool)
    (measured : Option Nat) (r : RecipientStanza) (passphrase : String)
    (h : (target_scrypt_work_factor hasClock measured).1 + 4 < r.log_n) :
    (RecipientStanza.unwrap_file_key C hasClock measured r passphrase none).1
        = .err (.ExcessiveWork r.log_n (target_scrypt_work_factor hasClock measured).1)
    ∧ ∀ c ∈ (RecipientStanza.unwrap_file_key C hasClock measured r passphrase none).2,
        c.salt = [] ∧ c.log_n = 10 ∧ c.passphrase = "" := by
  have hcond :
      r.log_n > Option.getD none ((target_scrypt_work_factor hasClock measured).1 + 4) := by
    simpa using h
  constructor
  · simp only [RecipientStanza.unwrap_file_key]
    rw [if_pos hcond]
  · simp only [RecipientStanza.unwrap_file_key]
    rw [if_pos hcond]
    cases hasClock <;> simp [target_scrypt_work_factor]

/-- C1 witness: a concrete run of the amended claim, at measured
duration of one second (target 10) and stanza exponent 15. -/
theorem excessive_work_rejection_only_calibration_probe_witness :
    (target_scrypt_work_factor true (some ONE_SECOND)).1 + 4 < 15
    ∧ ((RecipientStanza.unwrap_file_key trivialCrypto true (some ONE_SECOND)
          ⟨List.replicate 16 0, 15, List.replicate 32 0⟩ "" none).1
        = .err (.ExcessiveWork 15 (target_scrypt_work_factor true (some ONE_SECOND)).1)
      ∧ ∀ c ∈ (RecipientStanza.unwrap_file_key trivialCrypto true (some ONE_SECOND)
          ⟨List.replicate 16 0, 15, List.replicate 32 0⟩ "" none).2,
          c.salt = [] ∧ c.log_n = 10 ∧ c.passphrase = "") :=
  ⟨by decide, excessive_work_rejection_only_calibration_probe trivialCrypto true
    (some ONE_SECOND) ⟨List.replicate 16 0, 15, List.replicate 32 0⟩ "" (by decide)⟩

/-- C2: for every 16-byte salt, cost exponent in `u8` range, and
32-byte wrapped key, parsing the serialized stanza yields the original
stanza. -/
theorem parse_serialize_roundtrip (salt efk : List Nat) (log_n : Nat)
    (hs : salt.length = SALT_LEN) (hsb : ∀ b ∈ salt, b < 256)
    (hn : log_n < 256) (he : efk.length = ENCRYPTED_FILE_KEY_BYTES) :
    RecipientStanza.from_stanza (write.recipient_stanza ⟨salt, log_n, efk⟩) =
      some ⟨salt, log_n, efk⟩ := by
  unfold RecipientStanza.from_stanza write.recipient_stanza
  rw [if_neg (by simp)]
  simp only [List.get?, Option.some_bind, base64_arg, b64Decode_b64Encode salt hsb,
    hs, if_pos, fromStrRadix10_u8ReprStr hn]
  simp [he]

/-- C2 witness: round trip at a concrete all-zero salt, exponent 18,
and all-one wrapped key. -/
theorem parse_serialize_roundtrip_witness :
    (List.replicate 16 0).length = SALT_LEN
    ∧ (∀ b ∈ List.replicate 16 0, b < 256)
    ∧ 18 < 256
    ∧ (List.replicate 32 1).length = ENCRYPTED_FILE_KEY_BYTES
    ∧ RecipientStanza.from_stanza
        (write.recipient_stanza ⟨List.replicate 16 0, 18, List.replicate 32 1⟩)
        = some ⟨List.replicate 16 0, 18, List.replicate 32 1⟩ :=
  ⟨by decide, by decide, by decide, by decide,
    parse_serialize_roundtrip (List.replicate 16 0) (List.replicate 32 1) 18
      (by decide) (by decide) (by decide) (by decide)⟩

/-- C3: a stanza whose cost exponent is 64 or more never yields a file
key: for every crypto instantiation, platform, passphrase, and caller
ceiling, `unwrap_file_key` fails (with excessive-work, either from the
ceiling check or from the derivation primitive's own rejection). -/
theorem large_exponent_never_unwraps (C : Crypto) (hasClock : Bool)
    (measured : Option Nat) (r : RecipientStanza) (passphrase : String)
    (mwf : Option Nat) (h : 64 ≤ r.log_n) :
    (RecipientStanza.unwrap_file_key C hasClock measured r passphrase mwf).1
      = .err (.ExcessiveWork r.log_n (target_scrypt_work_factor hasClock measured).1) := by
  simp only [RecipientStanza.unwrap_file_key]
  by_cases hb : r.log_n > mwf.getD ((target_scrypt_work_factor hasClock measured).1 + 4)
  · rw [if_pos hb]
  · rw [if_neg hb]
    simp [scrypt, show ¬ r.log_n < 64 by omega]

/-- C3 witness: exponent exactly 64 is rejected. -/
theorem large_exponent_never_unwraps_witness :
    64 ≤ (64 : Nat)
    ∧ (RecipientStanza.unwrap_file_key trivialCrypto false none
        ⟨List.replicate 16 0, 64, List.replicate 32 0⟩ "" none).1
      = .err (.ExcessiveWork 64 (target_scrypt_work_factor false none).1) :=
  ⟨by decide, large_exponent_never_unwraps trivialCrypto false none
    ⟨List.replicate 16 0, 64, List.replicate 32 0⟩ "" none (by decide)⟩

/-- C4: the calibrator always returns a work factor strictly below 64,
on the measured path (doubling loop capped at 63) and on the no-clock
fallback path (fixed 18). -/
theorem target_work_factor_lt_64 (hasClock : Bool) (measured : Option Nat) :
    (target_scrypt_work_factor hasClock measured).1 < 64 := by
  have h53 : ∀ d, calibrate_loop 53 d 10 < 64 := fun d => by
    have := calibrate_loop_le 53 d 10 (by omega)
    omega
  cases hasClock with
  | false => simp [target_scrypt_work_factor]
  | true =>
      cases measured with
      | none => simp [target_scrypt_work_factor]
      | some d => simpa [target_scrypt_work_factor] using h53 d

/-- C5: the effective ceiling is the caller-supplied maximum when
present and `target + 4` otherwise, and every stanza whose exponent is
at most that ceiling proceeds past the bound check to the derivation
step: the invocation list ends with a scrypt call at the stanza's own
parameters (domain-separated salt, stanza exponent, the passphrase). -/
theorem within_ceiling_proceeds_to_derivation (C : Crypto) (hasClock : Bool)
    (measured : Option Nat) (r : RecipientStanza) (passphrase : String)
    (mwf : Option Nat)
    (h : r.log_n ≤ mwf.getD ((target_scrypt_work_factor hasClock measured).1 + 4)) :
    (RecipientStanza.unwrap_file_key C hasClock measured r passphrase mwf).2
      = (target_scrypt_work_factor hasClock measured).2
        ++ [⟨SCRYPT_SALT_LABEL ++ r.salt, r.log_n, passphrase⟩] := by
  simp only [RecipientStanza.unwrap_file_key]
  rw [if_neg (by omega)]
  cases hsc : scrypt C (SCRYPT_SALT_LABEL ++ r.salt) r.log_n passphrase with
  | none => simp
  | some k =>
      cases ha : C.aead_open k r.encrypted_file_key with
      | none => simp [ha]
      | some pt => by_cases hl : pt.length = 16 <;> simp [ha, hl]

/-- C5 witness: with no caller ceiling on the fallback platform the
ceiling is 22, and exponent 10 reaches the derivation step. -/
theorem within_ceiling_proceeds_to_derivation_witness :
    (10 : Nat) ≤ (none : Option Nat).getD ((target_scrypt_work_factor false none).1 + 4)
    ∧ (RecipientStanza.unwrap_file_key trivialCrypto false none
        ⟨List.replicate 16 0, 10, List.replicate 32 0⟩ "" none).2
      = (target_scrypt_work_factor false none).2
        ++ [⟨SCRYPT_SALT_LABEL ++ List.replicate 16 0, 10, ""⟩] :=
  ⟨by decide, within_ceiling_proceeds_to_derivation trivialCrypto false none
    ⟨List.replicate 16 0, 10, List.replicate 32 0⟩ "" none (by decide)⟩

/-- C6: a generic stanza with a different tag, a first argument that
does not decode to a 16-byte salt, a second argument that does not
parse as a base-10 `u8`, or a body that is not exactly 32 bytes, always
parses to `none` — never a constructed stanza (and, the embedding being
total, never a crash). -/
theorem from_stanza_nonmatch_returns_none (s : AgeStanza)
    (h : s.tag ≠ SCRYPT_RECIPIENT_TAG
       ∨ (∀ a0, s.args.get? 0 = some a0 → base64_arg a0 SALT_LEN = none)
       ∨ (∀ a1, s.args.get? 1 = some a1 → fromStrRadix10 a1 = none)
       ∨ s.body.length ≠ ENCRYPTED_FILE_KEY_BYTES) :
    RecipientStanza.from_stanza s = none := by
  unfold RecipientStanza.from_stanza
  by_cases ht : s.tag ≠ SCRYPT_RECIPIENT_TAG
  · rw [if_pos ht]
  rw [if_neg ht]
  rcases h with h | h | h | h
  · exact absurd h ht
  · cases h0 : s.args.get? 0 with
    | none => rfl
    | some a0 => simp [h0, h a0 h0]
  · cases h0 : s.args.get? 0 with
    | none => rfl
    | some a0 =>
        cases hs0 : base64_arg a0 SALT_LEN with
        | none => simp [h0, hs0]
        | some salt =>
            cases h1 : s.args.get? 1 with
            | none => simp [h0, hs0, h1]
            | some a1 => simp [h0, hs0, h1, h a1 h1]
  · cases h0 : s.args.get? 0 with
    | none => rfl
    | some a0 =>
        cases hs0 : base64_arg a0 SALT_LEN with
        | none => simp [h0, hs0]
        | some salt =>
            cases h1 : s.args.get? 1 with
            | none => simp [h0, hs0, h1]
            | some a1 =>
                cases hn : fromStrRadix10 a1 with
                | none => simp [h0, hs0, h1, hn]
                | some n => simp [h0, hs0, h1, hn, h]

/-- C6 witness: a scrypt-tagged stanza with valid arguments but an
empty body does not parse. -/
theorem from_stanza_nonmatch_returns_none_witness :
    (⟨SCRYPT_RECIPIENT_TAG, ["AAAAAAAAAAAAAAAAAAAAAA", "10"], []⟩ : AgeStanza).body.length
        ≠ ENCRYPTED_FILE_KEY_BYTES
    ∧ RecipientStanza.from_stanza
        ⟨SCRYPT_RECIPIENT_TAG, ["AAAAAAAAAAAAAAAAAAAAAA", "10"], []⟩ = none :=
  ⟨by decide, from_stanza_nonmatch_returns_none
    ⟨SCRYPT_RECIPIENT_TAG, ["AAAAAAAAAAAAAAAAAAAAAA", "10"], []⟩
    (Or.inr (Or.inr (Or.inr (by decide))))⟩

/-- C7: when the derivation primitive itself rejects the exponent
(which passes the ceiling check), the failure is the same excessive-work
error with the same required exponent and the same measured target as a
ceiling rejection would carry, so the two causes are indistinguishable
to the caller. -/
theorem primitive_rejection_same_excessive_work (C : Crypto) (hasClock : Bool)
    (measured : Option Nat) (r : RecipientStanza) (passphrase : String)
    (mwf : Option Nat) (h64 : 64 ≤ r.log_n)
    (hle : r.log_n ≤ mwf.getD ((target_scrypt_work_factor hasClock measured).1 + 4)) :
    (RecipientStanza.unwrap_file_key C hasClock measured r passphrase mwf).1
      = .err (.ExcessiveWork r.log_n (target_scrypt_work_factor hasClock measured).1) := by
  simp only [RecipientStanza.unwrap_file_key]
  rw [if_neg (by omega)]
  simp [scrypt, show ¬ r.log_n < 64 by omega]

/-- C7 witness: a caller ceiling of 70 lets exponent 64 through the
bound check; the primitive's rejection is reported as excessive-work
with required 64 and the measured target. -/
theorem primitive_rejection_same_excessive_work_witness :
    64 ≤ (64 : Nat)
    ∧ (64 : Nat) ≤ (some 70 : Option Nat).getD ((target_scrypt_work_factor false none).1 + 4)
    ∧ (RecipientStanza.unwrap_file_key trivialCrypto false none
        ⟨List.replicate 16 0, 64, List.replicate 32 0⟩ "" (some 70)).1
      = .err (.ExcessiveWork 64 (target_scrypt_work_factor false none).1) :=
  ⟨by decide, by decide, primitive_rejection_same_excessive_work trivialCrypto false none
    ⟨List.replicate 16 0, 64, List.replicate 32 0⟩ "" (some 70) (by decide) (by decide)⟩

/-- C8: for a stanza within the effective ceiling and a representable
exponent, an authenticated-decryption failure (wrong passphrase) is
reported as a decryption failure — not excessive-work and not a
panic. -/
theorem wrong_passphrase_yields_decryption_failure (C : Crypto) (hasClock : Bool)
    (measured : Option Nat) (r : RecipientStanza) (passphrase : String)
    (mwf : Option Nat)
    (hle : r.log_n ≤ mwf.getD ((target_scrypt_work_factor hasClock measured).1 + 4))
    (h64 : r.log_n < 64)
    (hfail : C.aead_open (C.derive (SCRYPT_SALT_LABEL ++ r.salt) r.log_n passphrase)
        r.encrypted_file_key = none) :
    (RecipientStanza.unwrap_file_key C hasClock measured r passphrase mwf).1
      = .err .DecryptionFailed := by
  simp only [RecipientStanza.unwrap_file_key]
  rw [if_neg (by omega)]
  simp [scrypt, if_pos h64, hfail]

/-- C8 witness: with authenticated decryption that always fails, an
in-bound unwrap fails with a decryption failure. -/
theorem wrong_passphrase_yields_decryption_failure_witness :
    (10 : Nat) ≤ (none : Option Nat).getD ((target_scrypt_work_factor false none).1 + 4)
    ∧ (10 : Nat) < 64
    ∧ trivialCrypto.aead_open
        (trivialCrypto.derive (SCRYPT_SALT_LABEL ++ List.replicate 16 0) 10 "")
        (List.replicate 32 0) = none
    ∧ (RecipientStanza.unwrap_file_key trivialCrypto false none
        ⟨List.replicate 16 0, 10, List.replicate 32 0⟩ "" none).1
      = .err .DecryptionFailed :=
  ⟨by decide, by decide, by decide, wrong_passphrase_yields_decryption_failure
    trivialCrypto false none ⟨List.replicate 16 0, 10, List.replicate 32 0⟩ "" none
    (by decide) (by decide) (by decide)⟩

/-- C9: under the collaborator contract that opening a 32-byte wrapped
body yields exactly 16 plaintext bytes, the copy into the 16-byte file
key cannot panic, and every successful unwrap returns exactly 16
bytes. -/
theorem unwrap_success_yields_16_byte_key (C : Crypto) (hasClock : Bool)
    (measured : Option Nat) (r : RecipientStanza) (passphrase : String)
    (mwf : Option Nat)
    (hlen : r.encrypted_file_key.length = ENCRYPTED_FILE_KEY_BYTES)
    (hC : ∀ key ct pt, ct.length = 32 → C.aead_open key ct = some pt → pt.length = 16) :
    (RecipientStanza.unwrap_file_key C hasClock measured r passphrase mwf).1
        ≠ .panicked
    ∧ ∀ fk, (RecipientStanza.unwrap_file_key C hasClock measured r passphrase mwf).1
        = .ok (some fk) → fk.length = 16 := by
  simp only [RecipientStanza.unwrap_file_key]
  by_cases hb : r.log_n > mwf.getD ((target_scrypt_work_factor hasClock measured).1 + 4)
  · rw [if_pos hb]
    exact ⟨by simp, by simp⟩
  · rw [if_neg hb]
    cases hsc : scrypt C (SCRYPT_SALT_LABEL ++ r.salt) r.log_n passphrase with
    | none => exact ⟨by simp, by simp⟩
    | some k =>
        cases ha : C.aead_open k r.encrypted_file_key with
        | none => exact ⟨by simp [ha], by simp [ha]⟩
        | some pt =>
            have hpt : pt.length = 16 :=
              hC k r.encrypted_file_key pt (by simpa [ENCRYPTED_FILE_KEY_BYTES] using hlen) ha
            refine ⟨by simp [ha, hpt], ?_⟩
            intro fk hfk
            simp [ha, hpt] at hfk
            rw [← hfk]
            exact hpt

/-- C9 witness: with a contract-honouring decryption primitive, a
concrete in-bound unwrap neither panics nor returns a key of the wrong
length. -/
theorem unwrap_success_yields_16_byte_key_witness :
    (RecipientStanza.unwrap_file_key okCrypto false none
        ⟨List.replicate 16 0, 10, List.replicate 32 0⟩ "" none).1 ≠ .panicked
    ∧ ∀ fk, (RecipientStanza.unwrap_file_key okCrypto false none
        ⟨List.replicate 16 0, 10, List.replicate 32 0⟩ "" none).1
        = .ok (some fk) → fk.length = 16 :=
  unwrap_success_yields_16_byte_key okCrypto false none
    ⟨List.replicate 16 0, 10, List.replicate 32 0⟩ "" none
    (by decide)
    (fun key ct pt hct h => by
      simp [okCrypto, hct] at h
      rw [← h]
      decide)

/-- C10: parsing never inspects arguments beyond the second — a
scrypt-tagged stanza with valid salt and exponent arguments, a 32-byte
body, and any trailing extra arguments still parses, to the same stanza
as without the extra arguments. -/
theorem from_stanza_ignores_extra_args (a0 a1 : String) (rest : List String)
    (body salt : List Nat) (n : Nat)
    (h0 : base64_arg a0 SALT_LEN = some salt)
    (h1 : fromStrRadix10 a1 = some n)
    (hb : body.length = ENCRYPTED_FILE_KEY_BYTES) :
    RecipientStanza.from_stanza ⟨SCRYPT_RECIPIENT_TAG, a0 :: a1 :: rest, body⟩
        = some ⟨salt, n, body⟩
    ∧ RecipientStanza.from_stanza ⟨SCRYPT_RECIPIENT_TAG, a0 :: a1 :: rest, body⟩
        = RecipientStanza.from_stanza ⟨SCRYPT_RECIPIENT_TAG, [a0, a1], body⟩ := by
  unfold RecipientStanza.from_stanza
  simp [List.get?, h0, h1, hb]

/-- C10 witness: an extra trailing argument is ignored at concrete
valid inputs. -/
theorem from_stanza_ignores_extra_args_witness :
    base64_arg "AAAAAAAAAAAAAAAAAAAAAA" SALT_LEN = some (List.replicate 16 0)
    ∧ fromStrRadix10 "10" = some 10
    ∧ (List.replicate 32 2).length = ENCRYPTED_FILE_KEY_BYTES
    ∧ (RecipientStanza.from_stanza
        ⟨SCRYPT_RECIPIENT_TAG, ["AAAAAAAAAAAAAAAAAAAAAA", "10", "extra"],
          List.replicate 32 2⟩
        = some ⟨List.replicate 16 0, 10, List.replicate 32 2⟩
      ∧ RecipientStanza.from_stanza
        ⟨SCRYPT_RECIPIENT_TAG, ["AAAAAAAAAAAAAAAAAAAAAA", "10", "extra"],
          List.replicate 32 2⟩
        = RecipientStanza.from_stanza
          ⟨SCRYPT_RECIPIENT_TAG, ["AAAAAAAAAAAAAAAAAAAAAA", "10"], List.replicate 32 2⟩) :=
  ⟨by decide, by decide, by decide,
    from_stanza_ignores_extra_args "AAAAAAAAAAAAAAAAAAAAAA" "10" ["extra"]
      (List.replicate 32 2) (List.replicate 16 0) 10 (by decide) (by decide) (by decide)⟩

end RageScrypt
